import Mathlib

/-!
Verification of the fraud-case store and verification workflow of
`backend/src/fraud_agent.py`.

The Python core persists a JSON list of case dictionaries and exposes three
operations over it: `load_case`, `verify_answer` and `update_case`, built on
two store primitives `_read_db` and `_write_db`.  We embed those functions
shallowly: a case dictionary becomes a structure whose known fields are
optional (a missing key or a JSON `null` is `none`) plus an `extra` component
carrying every unknown key verbatim; Python's `str.strip()` and `str.lower()`
become explicit character-list operations; the wall clock (`datetime.utcnow`)
is passed in as an explicit `now` argument; the possibility that the atomic
file replace fails is passed in as an explicit boolean oracle.
-/

namespace FraudAgent

/-- One entry of a case's audit trail, as appended by `update_case`:
a dictionary with a `timestamp` key and a `note` key. -/
structure HistoryEntry where
  timestamp : String
  note : String
deriving DecidableEq, Repr

/-- A case record, mirroring one dictionary of the persisted JSON list.
`none` in an optional field models a missing key (or JSON `null`).
`extra` carries the unknown keys of the dictionary, which the Python code
never touches: `update_case` mutates the dictionary in place, so every key
other than `status` and `history` is carried forward verbatim. -/
structure Case where
  userName : Option String
  securityAnswer : Option String
  status : Option String
  history : Option (List HistoryEntry)
  extra : List (String × String)
deriving DecidableEq, Repr

/-- The canonical store location.  In the source it is an absolute path
computed from `__file__`; only its identity matters here, so we model it as
an abstract constant string. -/
def DB_PATH : String := "fraud_cases.json"

/-- The state of the persisted document as `_read_db` finds it, mirroring
the branches of the Python function: the file may be missing
(`os.path.exists` is false), unreadable (`open`/read raises), malformed
(`json.load` raises), or parse to a document whose top level is a list, a
scalar, or a map. -/
inductive DbFile where
  | missing
  | unreadable
  | malformed
  | topLevelScalar
  | topLevelMap
  | topLevelList (cases : List Case)
deriving DecidableEq, Repr

/-- `_read_db`: read the persisted document and always return a list.
Missing file, read error, parse error and non-list top level all yield the
empty list; only a top-level list is returned as-is.  Every branch of the
Python `try`/`except` is total here, so no error escapes. -/
def _read_db (f : DbFile) : List Case :=
  match f with
  | .missing => []
  | .unreadable => []
  | .malformed => []
  | .topLevelScalar => []
  | .topLevelMap => []
  | .topLevelList cases => cases

/-- `_write_db`: serialize `data` to a temporary file, then atomically
replace the canonical document.  The whole body is wrapped in
`try`/`except`, so a failure (modelled by the oracle `ok = false`) leaves
the previously persisted document `canonical` untouched and raises nothing;
on success the document is fully replaced by `data`. -/
def _write_db (canonical : Option (List Case)) (data : List Case) (ok : Bool) :
    Option (List Case) :=
  if ok then some data else canonical

/-- The whitespace characters Python's `str.strip()` removes (ASCII range:
space, tab, newline, carriage return, vertical tab, form feed). -/
def isPySpace (c : Char) : Bool :=
  c == ' ' || c == '\t' || c == '\n' || c == '\r' || c == '\x0b' || c == '\x0c'

/-- Python `str.strip()`: drop leading and trailing whitespace. -/
def pyStrip (s : String) : String :=
  ⟨((s.data.dropWhile isPySpace).reverse.dropWhile isPySpace).reverse⟩

/-- Python `str.lower()` on one character (ASCII: map A-Z to a-z). -/
def pyLowerChar (c : Char) : Char :=
  if 65 ≤ c.toNat ∧ c.toNat ≤ 90 then Char.ofNat (c.toNat + 32) else c

/-- Python `str.lower()`. -/
def pyLower (s : String) : String :=
  ⟨s.data.map pyLowerChar⟩

/-- Python `(s or "").strip().lower()`: normalisation applied to the
caller-supplied identity and answer strings. -/
def pynorm (s : String) : String :=
  pyLower (pyStrip s)

/-- The key the Python scan computes from a stored case:
`case.get("userName", "").lower()` — the stored name is lowercased but,
unlike the caller's identity, NOT stripped. -/
def caseUserKey (c : Case) : String :=
  pyLower (c.userName.getD "")

/-- `load_case`: normalise the identity (trim, lowercase); an empty result
short-circuits to not-found without reading the store; otherwise scan the
store in order and return the first case whose `caseUserKey` equals the
normalised identity. -/
def load_case (store : List Case) (userName : String) : Option Case :=
  let u := pynorm userName
  if u = "" then none
  else store.find? (fun c => caseUserKey c == u)

/-- The expected answer the Python code computes:
`(case.get("securityAnswer") or "").strip().lower()` — a missing key, a
`null` and an empty string all collapse to `""` before trimming. -/
def expectedAnswer (c : Case) : String :=
  pynorm (c.securityAnswer.getD "")

/-- `verify_answer`: delegate the lookup to `load_case`; an absent case
verifies as `false`; otherwise compare the normalised caller answer with
the normalised stored `securityAnswer` for equality. -/
def verify_answer (store : List Case) (userName answer : String) : Bool :=
  match load_case store userName with
  | none => false
  | some c => pynorm answer == expectedAnswer c

/-- The in-place mutation `update_case` performs on the matched dictionary:
`c["status"] = status`, `c.setdefault("history", [])`, then append one
`timestamp`/`note` entry.  All other fields are untouched. -/
def applyUpdate (c : Case) (status note now : String) : Case :=
  { c with
    status := some status
    history := some (c.history.getD [] ++ [⟨now, note⟩]) }

/-- The `for c in cases` loop of `update_case`: find the first case whose
`caseUserKey` equals the normalised identity and replace it by its mutated
copy, leaving every other case and the order untouched; `none` when no case
matches. -/
def updateScan (cases : List Case) (u status note now : String) :
    Option (List Case) :=
  match cases with
  | [] => none
  | c :: rest =>
    if caseUserKey c == u then
      some (applyUpdate c status note now :: rest)
    else
      match updateScan rest u status note now with
      | none => none
      | some rest' => some (c :: rest')

/-- `update_case`: normalise the identity, read the store, scan for the
first match.  On a match, mutate that case, attempt the write (whose
success is the oracle `writeOk`; a failed write leaves the old store
persisted and raises nothing) and return the saved outcome carrying the
store path — the outcome does not depend on whether the write landed.
With no match, return the not-found outcome without writing.  The result
pairs the returned string with the store as persisted after the call. -/
def update_case (store : List Case) (userName status outcomeNote now : String)
    (writeOk : Bool) : String × List Case :=
  let u := pynorm userName
  match updateScan store u status outcomeNote now with
  | none => ("error:not_found", store)
  | some newStore =>
    ("saved:" ++ DB_PATH, (_write_db (some store) newStore writeOk).getD store)

/-- Modelled from the spec (for comparison with `load_case`, which is
translated from the source): return the first case whose stored `userName`,
trimmed of surrounding whitespace and lowercased, equals the identity
trimmed and lowercased; not-found otherwise. -/
def specLoad (store : List Case) (userName : String) : Option Case :=
  store.find? (fun c => pynorm (c.userName.getD "") == pynorm userName)

/-- Concrete record used by the spec's own scenario: `alice`, pending, with
an extra transaction field carried along. -/
def caseAlice : Case :=
  ⟨some "alice", some "blue", some "pending", some [], [("merchant", "AcmeMart")]⟩

/-- Concrete record whose dictionary has no `history` key at all. -/
def caseBob : Case :=
  ⟨some "bob", some "red", some "pending", none, []⟩

/-- Concrete record whose stored `userName` carries surrounding whitespace. -/
def caseLeadSpace : Case :=
  ⟨some " alice ", some "blue", some "pending", some [], []⟩

/-- Concrete record with no `securityAnswer` key (Python `get` yields
`None`, collapsed to the empty string by `or ""`). -/
def caseNoAnswer : Case :=
  ⟨some "carol", none, some "pending", some [], []⟩

end FraudAgent

namespace FraudAgent

/-! ### Helper lemmas about the first-match scan -/

theorem find_first_of_split {α} (p : α → Bool) (pre : List α) (c : α) (post : List α)
    (hpre : ∀ a ∈ pre, p a = false) (hc : p c = true) :
    (pre ++ c :: post).find? p = some c := by
  induction pre with
  | nil => simp [List.find?_cons, hc]
  | cons a as ih =>
    have ha : p a = false := hpre a (by simp)
    simpa [List.find?_cons, ha] using ih (fun x hx => hpre x (by simp [hx]))

theorem find_eq_some_split {α} (p : α → Bool) (l : List α) (c : α)
    (h : l.find? p = some c) :
    p c = true ∧ ∃ pre post, l = pre ++ c :: post ∧ ∀ a ∈ pre, p a = false := by
  induction l with
  | nil => simp [List.find?] at h
  | cons a as ih =>
    by_cases hpa : p a = true
    · rw [List.find?_cons_of_pos _ hpa] at h
      cases h
      exact ⟨hpa, [], as, rfl, by simp⟩
    · have hpa' : p a = false := by simpa using hpa
      rw [List.find?_cons_of_neg _ (by simp [hpa'])] at h
      obtain ⟨hc, pre, post, rfl, hpre⟩ := ih h
      exact ⟨hc, a :: pre, post, rfl, by
        intro x hx
        rcases List.mem_cons.mp hx with rfl | hx
        · exact hpa'
        · exact hpre x hx⟩

theorem updateScan_eq_none (cases : List Case) (u s n t : String)
    (h : ∀ c ∈ cases, caseUserKey c ≠ u) :
    updateScan cases u s n t = none := by
  induction cases with
  | nil => rfl
  | cons c rest ih =>
    have hc : (caseUserKey c == u) = false := by
      simpa using h c (by simp)
    simp [updateScan, hc, ih (fun x hx => h x (by simp [hx]))]

theorem updateScan_split (pre : List Case) (c : Case) (post : List Case)
    (u s n t : String)
    (hpre : ∀ a ∈ pre, caseUserKey a ≠ u) (hc : caseUserKey c = u) :
    updateScan (pre ++ c :: post) u s n t =
      some (pre ++ applyUpdate c s n t :: post) := by
  induction pre with
  | nil => simp [updateScan, hc]
  | cons a as ih =>
    have ha : (caseUserKey a == u) = false := by
      simpa using hpre a (by simp)
    simp [updateScan, ha, ih (fun x hx => hpre x (by simp [hx]))]

end FraudAgent

namespace FraudAgent

/-! ### Claim theorems -/

/-- Claim C2, counterexample: the claim as stated fails.  The store holds a
single case whose stored `userName` is `" alice "`; its trimmed-and-lowercased
name equals the trimmed-and-lowercased identity `"alice"`, so the claim (and
`specLoad`, which transcribes the claim's words) requires the case to be
returned — but `load_case` does not strip the stored name and returns
not-found. -/
theorem load_case_stored_strip_cex :
    load_case [caseLeadSpace] "alice" = none ∧
    pynorm (caseLeadSpace.userName.getD "") = pynorm "alice" ∧
    specLoad [caseLeadSpace] "alice" = some caseLeadSpace := by
  refine ⟨by decide, by decide, by decide⟩

/-- Claim C2, amended: `load_case` trims and lowercases the caller identity;
an empty normalised identity yields not-found without scanning; otherwise it
returns the first case in store order whose stored `userName` (defaulting to
empty), lowercased but NOT trimmed, equals the normalised identity, and
not-found exactly when additionally no case satisfies that equality. -/
theorem load_case_first_match (store : List Case) (u : String) :
    (∀ c, load_case store u = some c ↔
      pynorm u ≠ "" ∧ caseUserKey c = pynorm u ∧
      ∃ pre post, store = pre ++ c :: post ∧
        ∀ a ∈ pre, caseUserKey a ≠ pynorm u) ∧
    (load_case store u = none ↔
      (pynorm u = "" ∨ ∀ c ∈ store, caseUserKey c ≠ pynorm u)) := by
  constructor
  · intro c
    by_cases hu : pynorm u = ""
    · simp [load_case, hu]
    · simp only [load_case, hu, if_neg, ne_eq, not_false_eq_true, true_and]
      constructor
      · intro h
        obtain ⟨hc, pre, post, rfl, hpre⟩ := find_eq_some_split _ _ _ h
        refine ⟨by simpa using hc, pre, post, rfl, ?_⟩
        intro a ha
        simpa using hpre a ha
      · rintro ⟨hc, pre, post, rfl, hpre⟩
        exact find_first_of_split _ pre c post
          (fun a ha => by simpa using hpre a ha) (by simpa using hc)
  · by_cases hu : pynorm u = ""
    · simp [load_case, hu]
    · rw [load_case]
      simp only [hu, if_neg, false_or, not_false_eq_true]
      rw [List.find?_eq_none]
      simp [hu]

/-- Concrete instance of `load_case_first_match`: the second case of the
store is found for the differently-spaced, differently-cased identity. -/
theorem load_case_first_match_witness :
    load_case [caseBob, caseAlice] " Alice " = some caseAlice :=
  ((load_case_first_match [caseBob, caseAlice] " Alice ").1 caseAlice).mpr
    ⟨by decide, by decide, [caseBob], [], rfl, by decide⟩

/-- Claim C3: `verify_answer` is false whenever `load_case` finds no case,
and when a case is found it is true exactly when the stripped, lowercased
answer equals the stripped, lowercased stored `securityAnswer` (a missing
answer defaulting to empty). -/
theorem verify_answer_spec (store : List Case) (u a : String) :
    (load_case store u = none → verify_answer store u a = false) ∧
    ∀ c, load_case store u = some c →
      (verify_answer store u a = true ↔
        pynorm a = pynorm (c.securityAnswer.getD "")) := by
  constructor
  · intro h
    simp [verify_answer, h]
  · intro c h
    simp [verify_answer, h, expectedAnswer]

/-- Concrete instance of `verify_answer_spec`: the spec scenario
`verify("alice", "Blue")` is true. -/
theorem verify_answer_spec_witness :
    verify_answer [caseAlice] "ALICE" " Blue " = true :=
  ((verify_answer_spec [caseAlice] "ALICE" " Blue ").2 caseAlice (by decide)).mpr
    (by decide)

end FraudAgent

namespace FraudAgent

/-- Claim C4: when the identity matches, `update_case` rewrites the store
so that the first matching case gets `status` set verbatim and exactly one
`timestamp`/`note` entry appended at the end of its history, while its
every other field (the record update touches only `status` and `history`,
so `userName`, `securityAnswer` and the unknown `extra` fields are carried
forward), every other case and the order of the sequence are unchanged, and
the returned outcome is `saved:` with the store path. -/
theorem update_case_found (pre : List Case) (c : Case) (post : List Case)
    (u s n t : String)
    (hpre : ∀ a ∈ pre, caseUserKey a ≠ pynorm u)
    (hc : caseUserKey c = pynorm u) :
    update_case (pre ++ c :: post) u s n t true =
      ("saved:" ++ DB_PATH,
        pre ++ { c with status := some s,
                        history := some (c.history.getD [] ++ [⟨t, n⟩]) } :: post) := by
  simp [update_case, updateScan_split pre c post (pynorm u) s n t hpre hc,
    _write_db, applyUpdate]

/-- Concrete instance of `update_case_found`: updating `bob` mutates only
the second record, initialising its absent history. -/
theorem update_case_found_witness :
    update_case [caseAlice, caseBob] "Bob " "confirmed_fraud" "n1" "t1" true =
      ("saved:" ++ DB_PATH,
        [caseAlice,
         { caseBob with status := some "confirmed_fraud",
                        history := some [⟨"t1", "n1"⟩] }]) :=
  update_case_found [caseAlice] caseBob [] "Bob " "confirmed_fraud" "n1" "t1"
    (by decide) (by decide)

/-- Claim C5: when no case matches the identity, `update_case` returns the
not-found outcome and the persisted store is exactly the prior store, for
either value of the write oracle (no write is attempted at all). -/
theorem update_case_notfound (store : List Case) (u s n t : String) (w : Bool)
    (h : ∀ c ∈ store, caseUserKey c ≠ pynorm u) :
    update_case store u s n t w = ("error:not_found", store) := by
  simp [update_case, updateScan_eq_none store (pynorm u) s n t h]

/-- Concrete instance of `update_case_notfound`: the spec scenario
`update("bob", "x", "y")` on a store holding only `alice`. -/
theorem update_case_notfound_witness :
    update_case [caseAlice] "bob" "x" "y" "t0" true =
      ("error:not_found", [caseAlice]) :=
  update_case_notfound [caseAlice] "bob" "x" "y" "t0" true (by decide)

/-- Claim C6: `_read_db` never fails outward — it is total, and on every
file state other than a successfully parsed top-level list (missing file,
unreadable file, malformed content, scalar or map at top level) it returns
the empty sequence. -/
theorem read_db_fail_open (f : DbFile) (h : ∀ cs, f ≠ .topLevelList cs) :
    _read_db f = [] := by
  cases f with
  | topLevelList cs => exact absurd rfl (h cs)
  | missing => rfl
  | unreadable => rfl
  | malformed => rfl
  | topLevelScalar => rfl
  | topLevelMap => rfl

/-- Concrete instance of `read_db_fail_open`: a missing file reads as the
empty store. -/
theorem read_db_fail_open_witness : _read_db .missing = [] :=
  read_db_fail_open .missing (fun _ h => DbFile.noConfusion h)

/-- Claim C7: a failed `_write_db` leaves the previously persisted document
untouched (first conjunct), and an `update_case` whose identity matched a
case still returns the saved outcome even though its write failed, the
persisted store staying exactly the prior one (second conjunct); both
functions are total, so no exception reaches the caller. -/
theorem update_case_write_failure (pre : List Case) (c : Case) (post : List Case)
    (u s n t : String)
    (hpre : ∀ a ∈ pre, caseUserKey a ≠ pynorm u)
    (hc : caseUserKey c = pynorm u) :
    (∀ canonical data, _write_db canonical data false = canonical) ∧
    update_case (pre ++ c :: post) u s n t false =
      ("saved:" ++ DB_PATH, pre ++ c :: post) := by
  refine ⟨fun canonical data => rfl, ?_⟩
  simp [update_case, updateScan_split pre c post (pynorm u) s n t hpre hc,
    _write_db]

/-- Concrete instance of `update_case_write_failure`: a failed write on the
`alice` update still reports saved while persisting the old store. -/
theorem update_case_write_failure_witness :
    update_case [caseAlice, caseBob] "alice" "confirmed_safe" "ok" "t1" false =
      ("saved:" ++ DB_PATH, [caseAlice, caseBob]) :=
  (update_case_write_failure [] caseAlice [caseBob] "alice" "confirmed_safe"
    "ok" "t1" (by decide) (by decide)).2

end FraudAgent

namespace FraudAgent

/-- Claim C8: two sequential `update_case` calls on the same matching
identity append two history entries to the matched case — the second call
deduplicates nothing even when the status and note repeat — and the case's
status is the supplied value after both calls. -/
theorem update_case_twice (pre : List Case) (c : Case) (post : List Case)
    (u s n t1 t2 : String)
    (hpre : ∀ a ∈ pre, caseUserKey a ≠ pynorm u)
    (hc : caseUserKey c = pynorm u) :
    (update_case (update_case (pre ++ c :: post) u s n t1 true).2
        u s n t2 true).2 =
      pre ++ { c with status := some s,
                      history := some (c.history.getD [] ++ [⟨t1, n⟩, ⟨t2, n⟩])
              } :: post := by
  have step1 : (update_case (pre ++ c :: post) u s n t1 true).2 =
      pre ++ applyUpdate c s n t1 :: post := by
    simp [update_case, updateScan_split pre c post (pynorm u) s n t1 hpre hc,
      _write_db]
  have hc1 : caseUserKey (applyUpdate c s n t1) = pynorm u := by
    simpa [applyUpdate, caseUserKey] using hc
  rw [step1]
  simp only [update_case,
    updateScan_split pre (applyUpdate c s n t1) post (pynorm u) s n t2 hpre hc1,
    _write_db]
  simp [applyUpdate]

/-- Concrete instance of `update_case_twice`: repeating the `alice` update
leaves two history entries and the repeated status. -/
theorem update_case_twice_witness :
    (update_case (update_case [caseAlice] "alice" "confirmed_safe" "ok" "t1"
        true).2 "alice" "confirmed_safe" "ok" "t2" true).2 =
      [{ caseAlice with status := some "confirmed_safe",
                        history := some [⟨"t1", "ok"⟩, ⟨"t2", "ok"⟩] }] :=
  update_case_twice [] caseAlice [] "alice" "confirmed_safe" "ok" "t1" "t2"
    (by decide) (by decide)

/-- Claim C9: when the matched case's `securityAnswer` is absent, null or
whitespace-only (all of which strip to the empty string), `verify_answer`
accepts every answer that strips to the empty string. -/
theorem verify_answer_empty_accepts (pre : List Case) (c : Case)
    (post : List Case) (u a : String)
    (hpre : ∀ x ∈ pre, caseUserKey x ≠ pynorm u)
    (hc : caseUserKey c = pynorm u)
    (hu : pynorm u ≠ "")
    (hsa : pyStrip (c.securityAnswer.getD "") = "")
    (ha : pyStrip a = "") :
    verify_answer (pre ++ c :: post) u a = true := by
  have hload : load_case (pre ++ c :: post) u = some c := by
    rw [load_case]
    simp only [hu, if_neg, not_false_eq_true]
    exact find_first_of_split _ pre c post
      (fun x hx => by simpa using hpre x hx) (by simpa using hc)
  simp [verify_answer, hload, expectedAnswer, pynorm, hsa, ha]

/-- Concrete instance of `verify_answer_empty_accepts`: a whitespace-only
answer verifies against a case with no stored `securityAnswer`. -/
theorem verify_answer_empty_accepts_witness :
    verify_answer [caseNoAnswer] "Carol" "   " = true :=
  verify_answer_empty_accepts [] caseNoAnswer [] "Carol" "   "
    (by decide) (by decide) (by decide) (by decide) (by decide)

/-- Claim C10: on a matched identity `update_case` always succeeds — also
when the matched case has no `history` field, which is first initialised to
the empty sequence — and after the saved outcome the matched record carries
a history sequence that is non-empty and whose last entry is exactly the
appended `timestamp`/`note` pair. -/
theorem update_case_history_last (pre : List Case) (c : Case)
    (post : List Case) (u s n t : String)
    (hpre : ∀ a ∈ pre, caseUserKey a ≠ pynorm u)
    (hc : caseUserKey c = pynorm u) :
    ∃ l, update_case (pre ++ c :: post) u s n t true =
        ("saved:" ++ DB_PATH,
          pre ++ { c with status := some s, history := some l } :: post) ∧
      l ≠ [] ∧ l.getLast? = some ⟨t, n⟩ := by
  refine ⟨c.history.getD [] ++ [⟨t, n⟩], ?_, by simp, by simp⟩
  simp [update_case, updateScan_split pre c post (pynorm u) s n t hpre hc,
    _write_db, applyUpdate]

/-- Concrete instance of `update_case_history_last`: `caseBob` has no
history field, yet the update succeeds with a one-entry history. -/
theorem update_case_history_last_witness :
    ∃ l, update_case [caseBob] "bob" "s1" "n1" "t1" true =
        ("saved:" ++ DB_PATH,
          [{ caseBob with status := some "s1", history := some l }]) ∧
      l ≠ [] ∧ l.getLast? = some ⟨"t1", "n1"⟩ :=
  update_case_history_last [] caseBob [] "bob" "s1" "n1" "t1"
    (by decide) (by decide)

/-- Claim C1: the code has no lock — the claimed mutual exclusion does not
exist, and the lost-update hazard is real.  Writer A updates `alice` and
commits (first conjunct: A's write is persisted, carrying A's mutation).
Writer B read the store before A wrote, so B's whole-document rewrite is
based on the pre-A snapshot; after B's write the persisted store again
holds the original `alice` record (second and third conjuncts): A's
committed update has been lost.  Had the two read-modify-write sections
been serialized, as the claim requires, both mutations would survive
(fourth conjunct). -/
theorem update_case_lost_update :
    (update_case [caseAlice, caseBob] "alice" "confirmed_safe" "nA" "tA"
        true).2 =
      [applyUpdate caseAlice "confirmed_safe" "nA" "tA", caseBob] ∧
    (update_case [caseAlice, caseBob] "bob" "confirmed_fraud" "nB" "tB"
        true).2 =
      [caseAlice, applyUpdate caseBob "confirmed_fraud" "nB" "tB"] ∧
    load_case (update_case [caseAlice, caseBob] "bob" "confirmed_fraud" "nB"
        "tB" true).2 "alice" = some caseAlice ∧
    load_case (update_case (update_case [caseAlice, caseBob] "alice"
        "confirmed_safe" "nA" "tA" true).2 "bob" "confirmed_fraud" "nB" "tB"
        true).2 "alice" =
      some (applyUpdate caseAlice "confirmed_safe" "nA" "tA") := by
  refine ⟨by decide, by decide, by decide, by decide⟩

end FraudAgent
